import Mathlib

/-!
Shallow embedding of the connection I/O, protocol sniffing, security gating
and worker-reclamation core of this httpd repository:

* `src/modules/http2/h2_h2.c` — magic-preface sniffing on incoming
  connections (`h2_h2_process_conn`) and the RFC 7540 transport-security
  gate (`h2_is_security_compliant`, cipher blacklist).
* `src/modules/http2/h2_conn_io.c` — the buffered connection channel:
  adaptive output buffering (`h2_conn_io_write`, `bucketeer_buffer`,
  `flush_out`, `h2_conn_io_flush`) and staged input consumption with
  split semantics (`h2_conn_io_bucket_read`, `h2_conn_io_read`).
* `src/server/mpm_unix.c` — the escalating-signal reclamation loop
  (`ap_reclaim_child_processes`), the extra-process ownership list
  (`ap_register_extra_mpm_process` / `ap_unregister_extra_mpm_process`),
  and the pipe-of-death wakeup (`ap_mpm_pod_signal`).

Bytes are modelled as `Nat`, APR statuses as `Nat` with `0 = APR_SUCCESS`,
time as `Nat` microseconds (`apr_time_t`).  External I/O results
(transport reads/writes, SSL variable lookups, worker liveness) are
passed in as explicit parameters; the transport is assumed to deliver
successfully, matching the success paths the theorems speak about.
-/

namespace Httpd

/-! ## Security gate: h2_h2.c -/

/-- Black-listed ciphers from RFC 7540 Appendix A: the `RFC7540_names`
array of `h2_h2.c`, in source order (duplicates included). -/
def RFC7540_names : List String := [
  "NULL-MD5",
  "NULL-SHA",
  "NULL-SHA256",
  "PSK-NULL-SHA",
  "DHE-PSK-NULL-SHA",
  "RSA-PSK-NULL-SHA",
  "PSK-NULL-SHA256",
  "PSK-NULL-SHA384",
  "DHE-PSK-NULL-SHA256",
  "DHE-PSK-NULL-SHA384",
  "RSA-PSK-NULL-SHA256",
  "RSA-PSK-NULL-SHA384",
  "ECDH-ECDSA-NULL-SHA",
  "ECDHE-ECDSA-NULL-SHA",
  "ECDH-RSA-NULL-SHA",
  "ECDHE-RSA-NULL-SHA",
  "AECDH-NULL-SHA",
  "ECDHE-PSK-NULL-SHA",
  "ECDHE-PSK-NULL-SHA256",
  "ECDHE-PSK-NULL-SHA384",
  "PSK-3DES-EDE-CBC-SHA",
  "DHE-PSK-3DES-EDE-CBC-SHA",
  "RSA-PSK-3DES-EDE-CBC-SHA",
  "ECDH-ECDSA-DES-CBC3-SHA",
  "ECDHE-ECDSA-DES-CBC3-SHA",
  "ECDH-RSA-DES-CBC3-SHA",
  "ECDHE-RSA-DES-CBC3-SHA",
  "AECDH-DES-CBC3-SHA",
  "SRP-3DES-EDE-CBC-SHA",
  "SRP-RSA-3DES-EDE-CBC-SHA",
  "SRP-DSS-3DES-EDE-CBC-SHA",
  "ECDHE-PSK-3DES-EDE-CBC-SHA",
  "DES-CBC-SHA",
  "DES-CBC3-SHA",
  "DHE-DSS-DES-CBC3-SHA",
  "DHE-RSA-DES-CBC-SHA",
  "DHE-RSA-DES-CBC3-SHA",
  "ADH-DES-CBC-SHA",
  "ADH-DES-CBC3-SHA",
  "EXP-DH-DSS-DES-CBC-SHA",
  "DH-DSS-DES-CBC-SHA",
  "DH-DSS-DES-CBC3-SHA",
  "EXP-DH-RSA-DES-CBC-SHA",
  "DH-RSA-DES-CBC-SHA",
  "DH-RSA-DES-CBC3-SHA",
  "EXP-RC4-MD5",
  "EXP-RC2-CBC-MD5",
  "EXP-DES-CBC-SHA",
  "EXP-DHE-DSS-DES-CBC-SHA",
  "EXP-DHE-RSA-DES-CBC-SHA",
  "EXP-ADH-DES-CBC-SHA",
  "EXP-ADH-RC4-MD5",
  "RC4-MD5",
  "RC4-SHA",
  "ADH-RC4-MD5",
  "KRB5-RC4-SHA",
  "KRB5-RC4-MD5",
  "EXP-KRB5-RC4-SHA",
  "EXP-KRB5-RC4-MD5",
  "PSK-RC4-SHA",
  "DHE-PSK-RC4-SHA",
  "RSA-PSK-RC4-SHA",
  "ECDH-ECDSA-RC4-SHA",
  "ECDHE-ECDSA-RC4-SHA",
  "ECDH-RSA-RC4-SHA",
  "ECDHE-RSA-RC4-SHA",
  "AECDH-RC4-SHA",
  "ECDHE-PSK-RC4-SHA",
  "AES128-SHA256",
  "DH-DSS-AES128-SHA",
  "DH-RSA-AES128-SHA",
  "DHE-DSS-AES128-SHA",
  "DHE-RSA-AES128-SHA",
  "ADH-AES128-SHA",
  "AES128-SHA256",
  "DH-DSS-AES128-SHA256",
  "DH-RSA-AES128-SHA256",
  "DHE-DSS-AES128-SHA256",
  "DHE-RSA-AES128-SHA256",
  "ECDH-ECDSA-AES128-SHA",
  "ECDHE-ECDSA-AES128-SHA",
  "ECDH-RSA-AES128-SHA",
  "ECDHE-RSA-AES128-SHA",
  "AECDH-AES128-SHA",
  "ECDHE-ECDSA-AES128-SHA256",
  "ECDH-ECDSA-AES128-SHA256",
  "ECDHE-RSA-AES128-SHA256",
  "ECDH-RSA-AES128-SHA256",
  "ADH-AES128-SHA256",
  "PSK-AES128-CBC-SHA",
  "DHE-PSK-AES128-CBC-SHA",
  "RSA-PSK-AES128-CBC-SHA",
  "PSK-AES128-CBC-SHA256",
  "DHE-PSK-AES128-CBC-SHA256",
  "RSA-PSK-AES128-CBC-SHA256",
  "ECDHE-PSK-AES128-CBC-SHA",
  "ECDHE-PSK-AES128-CBC-SHA256",
  "AES128-CCM",
  "AES128-CCM8",
  "PSK-AES128-CCM",
  "PSK-AES128-CCM8",
  "AES128-GCM-SHA256",
  "DH-RSA-AES128-GCM-SHA256",
  "DH-DSS-AES128-GCM-SHA256",
  "ADH-AES128-GCM-SHA256",
  "PSK-AES128-GCM-SHA256",
  "RSA-PSK-AES128-GCM-SHA256",
  "ECDH-ECDSA-AES128-GCM-SHA256",
  "ECDH-RSA-AES128-GCM-SHA256",
  "SRP-AES-128-CBC-SHA",
  "SRP-RSA-AES-128-CBC-SHA",
  "SRP-DSS-AES-128-CBC-SHA",
  "AES256-SHA",
  "DH-DSS-AES256-SHA",
  "DH-RSA-AES256-SHA",
  "DHE-DSS-AES256-SHA",
  "DHE-RSA-AES256-SHA",
  "ADH-AES256-SHA",
  "AES256-SHA256",
  "DH-DSS-AES256-SHA256",
  "DH-RSA-AES256-SHA256",
  "DHE-DSS-AES256-SHA256",
  "DHE-RSA-AES256-SHA256",
  "ADH-AES256-SHA256",
  "ECDH-ECDSA-AES256-SHA",
  "ECDHE-ECDSA-AES256-SHA",
  "ECDH-RSA-AES256-SHA",
  "ECDHE-RSA-AES256-SHA",
  "AECDH-AES256-SHA",
  "ECDHE-ECDSA-AES256-SHA384",
  "ECDH-ECDSA-AES256-SHA384",
  "ECDHE-RSA-AES256-SHA384",
  "ECDH-RSA-AES256-SHA384",
  "PSK-AES256-CBC-SHA",
  "DHE-PSK-AES256-CBC-SHA",
  "RSA-PSK-AES256-CBC-SHA",
  "PSK-AES256-CBC-SHA384",
  "DHE-PSK-AES256-CBC-SHA384",
  "RSA-PSK-AES256-CBC-SHA384",
  "ECDHE-PSK-AES256-CBC-SHA",
  "ECDHE-PSK-AES256-CBC-SHA384",
  "SRP-AES-256-CBC-SHA",
  "SRP-RSA-AES-256-CBC-SHA",
  "SRP-DSS-AES-256-CBC-SHA",
  "AES256-CCM",
  "AES256-CCM8",
  "PSK-AES256-CCM",
  "PSK-AES256-CCM8",
  "AES256-GCM-SHA384",
  "DH-RSA-AES256-GCM-SHA384",
  "DH-DSS-AES256-GCM-SHA384",
  "ADH-AES256-GCM-SHA384",
  "PSK-AES256-GCM-SHA384",
  "RSA-PSK-AES256-GCM-SHA384",
  "ECDH-ECDSA-AES256-GCM-SHA384",
  "ECDH-RSA-AES256-GCM-SHA384",
  "CAMELLIA128-SHA",
  "DH-DSS-CAMELLIA128-SHA",
  "DH-RSA-CAMELLIA128-SHA",
  "DHE-DSS-CAMELLIA128-SHA",
  "DHE-RSA-CAMELLIA128-SHA",
  "ADH-CAMELLIA128-SHA",
  "ECDHE-ECDSA-CAMELLIA128-SHA256",
  "ECDH-ECDSA-CAMELLIA128-SHA256",
  "ECDHE-RSA-CAMELLIA128-SHA256",
  "ECDH-RSA-CAMELLIA128-SHA256",
  "PSK-CAMELLIA128-SHA256",
  "DHE-PSK-CAMELLIA128-SHA256",
  "RSA-PSK-CAMELLIA128-SHA256",
  "ECDHE-PSK-CAMELLIA128-SHA256",
  "CAMELLIA128-GCM-SHA256",
  "DH-RSA-CAMELLIA128-GCM-SHA256",
  "DH-DSS-CAMELLIA128-GCM-SHA256",
  "ADH-CAMELLIA128-GCM-SHA256",
  "ECDH-ECDSA-CAMELLIA128-GCM-SHA256",
  "ECDH-RSA-CAMELLIA128-GCM-SHA256",
  "PSK-CAMELLIA128-GCM-SHA256",
  "RSA-PSK-CAMELLIA128-GCM-SHA256",
  "CAMELLIA128-SHA256",
  "DH-DSS-CAMELLIA128-SHA256",
  "DH-RSA-CAMELLIA128-SHA256",
  "DHE-DSS-CAMELLIA128-SHA256",
  "DHE-RSA-CAMELLIA128-SHA256",
  "ADH-CAMELLIA128-SHA256",
  "CAMELLIA256-SHA",
  "DH-RSA-CAMELLIA256-SHA",
  "DH-DSS-CAMELLIA256-SHA",
  "DHE-DSS-CAMELLIA256-SHA",
  "DHE-RSA-CAMELLIA256-SHA",
  "ADH-CAMELLIA256-SHA",
  "ECDHE-ECDSA-CAMELLIA256-SHA384",
  "ECDH-ECDSA-CAMELLIA256-SHA384",
  "ECDHE-RSA-CAMELLIA256-SHA384",
  "ECDH-RSA-CAMELLIA256-SHA384",
  "PSK-CAMELLIA256-SHA384",
  "DHE-PSK-CAMELLIA256-SHA384",
  "RSA-PSK-CAMELLIA256-SHA384",
  "ECDHE-PSK-CAMELLIA256-SHA384",
  "CAMELLIA256-SHA256",
  "DH-DSS-CAMELLIA256-SHA256",
  "DH-RSA-CAMELLIA256-SHA256",
  "DHE-DSS-CAMELLIA256-SHA256",
  "DHE-RSA-CAMELLIA256-SHA256",
  "ADH-CAMELLIA256-SHA256",
  "CAMELLIA256-GCM-SHA384",
  "DH-RSA-CAMELLIA256-GCM-SHA384",
  "DH-DSS-CAMELLIA256-GCM-SHA384",
  "ADH-CAMELLIA256-GCM-SHA384",
  "ECDH-ECDSA-CAMELLIA256-GCM-SHA384",
  "ECDH-RSA-CAMELLIA256-GCM-SHA384",
  "PSK-CAMELLIA256-GCM-SHA384",
  "RSA-PSK-CAMELLIA256-GCM-SHA384",
  "ARIA128-SHA256",
  "ARIA256-SHA384",
  "DH-DSS-ARIA128-SHA256",
  "DH-DSS-ARIA256-SHA384",
  "DH-RSA-ARIA128-SHA256",
  "DH-RSA-ARIA256-SHA384",
  "DHE-DSS-ARIA128-SHA256",
  "DHE-DSS-ARIA256-SHA384",
  "DHE-RSA-ARIA128-SHA256",
  "DHE-RSA-ARIA256-SHA384",
  "ADH-ARIA128-SHA256",
  "ADH-ARIA256-SHA384",
  "ECDHE-ECDSA-ARIA128-SHA256",
  "ECDHE-ECDSA-ARIA256-SHA384",
  "ECDH-ECDSA-ARIA128-SHA256",
  "ECDH-ECDSA-ARIA256-SHA384",
  "ECDHE-RSA-ARIA128-SHA256",
  "ECDHE-RSA-ARIA256-SHA384",
  "ECDH-RSA-ARIA128-SHA256",
  "ECDH-RSA-ARIA256-SHA384",
  "ARIA128-GCM-SHA256",
  "ARIA256-GCM-SHA384",
  "DH-DSS-ARIA128-GCM-SHA256",
  "DH-DSS-ARIA256-GCM-SHA384",
  "DH-RSA-ARIA128-GCM-SHA256",
  "DH-RSA-ARIA256-GCM-SHA384",
  "ADH-ARIA128-GCM-SHA256",
  "ADH-ARIA256-GCM-SHA384",
  "ECDH-ECDSA-ARIA128-GCM-SHA256",
  "ECDH-ECDSA-ARIA256-GCM-SHA384",
  "ECDH-RSA-ARIA128-GCM-SHA256",
  "ECDH-RSA-ARIA256-GCM-SHA384",
  "PSK-ARIA128-SHA256",
  "PSK-ARIA256-SHA384",
  "DHE-PSK-ARIA128-SHA256",
  "DHE-PSK-ARIA256-SHA384",
  "RSA-PSK-ARIA128-SHA256",
  "RSA-PSK-ARIA256-SHA384",
  "ARIA128-GCM-SHA256",
  "ARIA256-GCM-SHA384",
  "RSA-PSK-ARIA128-GCM-SHA256",
  "RSA-PSK-ARIA256-GCM-SHA384",
  "ECDHE-PSK-ARIA128-SHA256",
  "ECDHE-PSK-ARIA256-SHA384",
  "SEED-SHA",
  "DH-DSS-SEED-SHA",
  "DH-RSA-SEED-SHA",
  "DHE-DSS-SEED-SHA",
  "DHE-RSA-SEED-SHA",
  "ADH-SEED-SHA",
  "KRB5-DES-CBC-SHA",
  "KRB5-DES-CBC3-SHA",
  "KRB5-IDEA-CBC-SHA",
  "KRB5-DES-CBC-MD5",
  "KRB5-DES-CBC3-MD5",
  "KRB5-IDEA-CBC-MD5",
  "EXP-KRB5-DES-CBC-SHA",
  "EXP-KRB5-DES-CBC-MD5",
  "EXP-KRB5-RC2-CBC-SHA",
  "EXP-KRB5-RC2-CBC-MD5",
  "DHE-DSS-CBC-SHA",
  "IDEA-CBC-SHA",
  "SSL3_CK_SCSV",
  "SSL3_CK_FALLBACK_SCSV"
]

/-- The blacklist hash `BLCNames` built by `cipher_init` maps every name of
`RFC7540_names` to the source tag; `cipher_is_blacklisted` is exactly
membership of the cipher string in that table. -/
def cipher_is_blacklisted (cipher : String) : Bool :=
  RFC7540_names.contains cipher

/-- The C tests `val && *val`: an SSL variable lookup result is available
only when the pointer is non-NULL and the string is non-empty. -/
def availStr : Option String → Bool
  | none => false
  | some s => !(s == "")

/-- Cipher half of `h2_is_security_compliant` (h2_h2.c:486-500): a present
cipher fails iff blacklisted; an unavailable cipher fails iff
`require_all`. -/
def h2_ssl_cipher_check (sslCipher : Option String) (require_all : Bool) : Bool :=
  if availStr sslCipher then
    if cipher_is_blacklisted (sslCipher.getD "") then false
    else true
  else if require_all then false
  else true

/-- The version test of `h2_is_security_compliant` (h2_h2.c:469-471): a
present protocol-version string is rejected when it does not start with
"TLS" (`strncmp("TLS", val, 3)`) or equals exactly "TLSv1" or "TLSv1.1". -/
def h2_ssl_version_bad (val : String) : Bool :=
  !(val.startsWith "TLS") || val == "TLSv1" || val == "TLSv1.1"

/-- Embedding of `h2_is_security_compliant` (h2_h2.c:448-503).
`is_tls` is `h2_h2_is_tls(c)`, `compliance` is
`h2_config_geti(cfg, H2_CONF_COMPLIANCE) > 0`, `hasVarLookup` is whether
the optional `ssl_var_lookup` function was retrieved at `h2_h2_init`,
and `sslProtocol` / `sslCipher` are the results of looking up
`SSL_PROTOCOL` / `SSL_CIPHER` (`none` = NULL). -/
def h2_is_security_compliant (is_tls compliance hasVarLookup : Bool)
    (sslProtocol sslCipher : Option String) (require_all : Bool) : Bool :=
  if is_tls && compliance then
    if !hasVarLookup then false
    else if availStr sslProtocol then
      if h2_ssl_version_bad (sslProtocol.getD "") then false
      else h2_ssl_cipher_check sslCipher require_all
    else if require_all then false
    else h2_ssl_cipher_check sslCipher require_all
  else true

/-! ## Protocol sniffer: h2_h2_process_conn -/

/-- The 24 bytes of `H2_MAGIC_TOKEN = "PRI * HTTP/2.0\r\n\r\nSM\r\n\r\n"`
(h2_h2.c:46), as ASCII codes. -/
def H2_MAGIC_TOKEN : List Nat :=
  [80, 82, 73, 32, 42, 32, 72, 84, 84, 80, 47, 50, 46, 48, 13, 10, 13, 10,
   83, 77, 13, 10, 13, 10]

/-- Result of connection processing: `handled` models taking over the
connection (`h2_conn_main`), `declined` models returning `DECLINED`. -/
inductive ConnResult
  | handled
  | declined
deriving DecidableEq, Repr

/-- The direct-mode magic sniff inside `h2_h2_process_conn`
(h2_h2.c:587-601): a successful speculative read of `s` detects h2 iff at
least 24 bytes were produced and the first 24 equal the magic token
(`slen >= 24 && !memcmp(H2_MAGIC_TOKEN, s, 24)`); on detection the
protocol is "h2" on TLS and "h2c" on cleartext. -/
def sniffDirect (is_tls : Bool) (specOk : Bool) (s : List Nat) : Option String :=
  if specOk && decide (24 ≤ s.length) && decide (s.take 24 = H2_MAGIC_TOKEN) then
    some (if is_tls then "h2" else "h2c")
  else
    none

/-- Embedding of `h2_h2_process_conn` (h2_h2.c:542-631).  Abstracted
environment: `isTask` = `h2_ctx_is_task(ctx)`; `ctxProto0` = protocol
already recorded in the ctx (NULL = `none`); `onHttp1` = the connection
protocol equals `AP_PROTOCOL_HTTP1` before processing; `initReadOk` = the
`AP_MODE_INIT` read succeeded (TLS only); `alpnProto` = protocol selected
during the handshake by ALPN, if any; `postHttp1` = the connection is
still on HTTP/1.1 after the init read; `direct` =
`h2_config_geti(cfg, H2_CONF_DIRECT) > 0`; `specOk`/`specBytes` = status
and flattened bytes of the 24-byte speculative read.  The ctx accessors
`h2_ctx_protocol_get/set` and `h2_ctx_is_active` live outside the three
embedded files; following the spec, the ctx is active exactly when a
protocol has been selected for it.  Returns the hook result together with
the ctx protocol after processing. -/
def h2_h2_process_conn (isTask : Bool) (ctxProto0 : Option String)
    (onHttp1 : Bool) (is_tls : Bool) (initReadOk : Bool)
    (alpnProto : Option String) (postHttp1 : Bool) (direct : Bool)
    (specOk : Bool) (specBytes : List Nat) : ConnResult × Option String :=
  if isTask then (ConnResult.declined, ctxProto0)
  else
    let ctx :=
      if ctxProto0.isNone && onHttp1 then
        if is_tls && !initReadOk then ctxProto0
        else if alpnProto.isSome || !postHttp1 then alpnProto
        else if direct then
          match sniffDirect is_tls specOk specBytes with
          | some p => some p
          | none => ctxProto0
        else ctxProto0
      else ctxProto0
    if ctx.isSome then (ConnResult.handled, ctx)
    else (ConnResult.declined, ctx)

/-! ## Buffered channel: h2_conn_io.c -/

/-- h2_conn_io.c:31, `WRITE_BUFFER_SIZE = 64*1024`. -/
def WRITE_BUFFER_SIZE : Nat := 64 * 1024

/-- h2_conn_io.c:32, `WRITE_SIZE_INITIAL = 1300`. -/
def WRITE_SIZE_INITIAL : Nat := 1300

/-- h2_conn_io.c:33, `WRITE_SIZE_MAX = 16*1024`. -/
def WRITE_SIZE_MAX : Nat := 16 * 1024

/-- h2_conn_io.c:34, `WRITE_SIZE_IDLE_USEC = 1*APR_USEC_PER_SEC`. -/
def WRITE_SIZE_IDLE_USEC : Nat := 1000000

/-- h2_conn_io.c:35, `WRITE_SIZE_THRESHOLD = 1*1024*1024`. -/
def WRITE_SIZE_THRESHOLD : Nat := 1024 * 1024

/-- State of an `h2_conn_io` channel.  `buffer` holds the staged output
bytes (`io->buffer` up to `io->buflen`); in buffered mode its capacity is
the constant `WRITE_BUFFER_SIZE` that `h2_conn_io_init` assigns to
`io->bufsize`.  `output` is the output brigade as a list of data chunks;
`sent` collects every chunk passed to the transport filters by
`flush_out` (`ap_pass_brigade`), in order.  `now` is the model clock read
by `apr_time_now()`; the transport is modelled as always succeeding. -/
structure H2ConnIO where
  buffer : List Nat
  write_size : Nat
  bytes_written : Nat
  last_write : Nat
  buffer_output : Bool
  output : List (List Nat)
  sent : List (List Nat)
  unflushed : Bool
  now : Nat
deriving DecidableEq, Repr

/-- Embedding of `h2_conn_io_init` (h2_conn_io.c:37-65): empty brigades,
`write_size = WRITE_SIZE_INITIAL`, `last_write = 0`, buffering enabled iff
the connection is TLS (`h2_h2_is_tls`).  `bytes_written` starts at 0 (the
enclosing struct is zero-allocated). -/
def h2_conn_io_init (is_tls : Bool) (t0 : Nat) : H2ConnIO :=
  { buffer := [], write_size := WRITE_SIZE_INITIAL, bytes_written := 0,
    last_write := 0, buffer_output := is_tls, output := [], sent := [],
    unflushed := false, now := t0 }

/-- The write-size tuning at the head of `bucketeer_buffer`
(h2_conn_io.c:202-218): reset to `WRITE_SIZE_INITIAL` (and zero
`bytes_written`) when `write_size > WRITE_SIZE_INITIAL` and at least
`WRITE_SIZE_IDLE_USEC` has passed since `last_write`; otherwise grow to
`WRITE_SIZE_MAX` when below it and `bytes_written` reached
`WRITE_SIZE_THRESHOLD`. -/
def tune_write_size (io : H2ConnIO) : H2ConnIO :=
  if io.write_size > WRITE_SIZE_INITIAL ∧
      io.now - io.last_write ≥ WRITE_SIZE_IDLE_USEC then
    { io with write_size := WRITE_SIZE_INITIAL, bytes_written := 0 }
  else if io.write_size < WRITE_SIZE_MAX ∧
      io.bytes_written ≥ WRITE_SIZE_THRESHOLD then
    { io with write_size := WRITE_SIZE_MAX }
  else io

/-- The chunking loop of `bucketeer_buffer` (h2_conn_io.c:220-233):
`remaining / write_size` chunks of exactly `write_size` bytes followed by
one nonempty remainder chunk.  (The source divides by `write_size`, which
is never 0 in any reachable state; the `0 < ws` guard only makes the
definition total.) -/
def chunkify (ws : Nat) (data : List Nat) : List (List Nat) :=
  if h : 0 < ws ∧ ws ≤ data.length then
    data.take ws :: chunkify ws (data.drop ws)
  else if data.isEmpty then [] else [data]
termination_by data.length
decreasing_by
  simp only [List.length_drop]
  omega

/-- Embedding of `bucketeer_buffer` (h2_conn_io.c:196-235): tune the write
size, then append the chunked staged buffer to the output brigade.  The
caller resets `buflen` afterwards. -/
def bucketeer_buffer (io : H2ConnIO) : H2ConnIO :=
  let io := tune_write_size io
  { io with output := io.output ++ chunkify io.write_size io.buffer }

/-- Embedding of `flush_out` (h2_conn_io.c:177-194) on the success path:
the brigade is passed to the output filters (appended to `sent`),
`bytes_written` grows by the brigade's byte length, `last_write` is set to
the current time, and the brigade is cleaned up. -/
def flush_out (io : H2ConnIO) : H2ConnIO :=
  { io with sent := io.sent ++ io.output,
            bytes_written := io.bytes_written + (io.output.map List.length).sum,
            last_write := io.now,
            output := [] }

/-- The buffered-output loop of `h2_conn_io_write` (h2_conn_io.c:246-265):
while bytes remain, compute `avail = bufsize - buflen`; when the buffer is
full, bucketeer and flush it and reset `buflen = 0`; when the input
exceeds `avail`, copy `avail` bytes and continue; otherwise copy the rest
and stop. -/
def writeBuffered (io : H2ConnIO) (data : List Nat) : H2ConnIO :=
  if data.isEmpty then io
  else
    if h0 : WRITE_BUFFER_SIZE - io.buffer.length = 0 then
      writeBuffered { flush_out (bucketeer_buffer io) with buffer := [] } data
    else if hlt : WRITE_BUFFER_SIZE - io.buffer.length < data.length then
      writeBuffered
        { io with buffer :=
            io.buffer ++ data.take (WRITE_BUFFER_SIZE - io.buffer.length) }
        (data.drop (WRITE_BUFFER_SIZE - io.buffer.length))
    else
      { io with buffer := io.buffer ++ data }
termination_by 2 * data.length + (if io.buffer.length = 0 then 0 else 1)
decreasing_by
  · have hb : ¬ (io.buffer.length = 0) := by
      simp [WRITE_BUFFER_SIZE] at h0
      omega
    have hne : io.buffer ≠ [] := fun h => hb (by simp [h])
    simp [List.length_nil, if_neg hb, hne]
  · have h1 : 1 ≤ WRITE_BUFFER_SIZE - io.buffer.length :=
      Nat.one_le_iff_ne_zero.mpr h0
    simp only [List.length_drop]
    have h2 : (if (io.buffer ++
        List.take (WRITE_BUFFER_SIZE - io.buffer.length) data).length = 0
        then 0 else 1) ≤ 1 := by split <;> omega
    have h3 : 0 ≤ (if io.buffer.length = 0 then 0 else 1) := Nat.zero_le _
    omega

/-- Embedding of `h2_conn_io_write` (h2_conn_io.c:237-277): mark the
channel unflushed, then either run the buffered loop or, unbuffered,
hand the bytes to `apr_brigade_write` — an external APR routine that
stages the bytes in the output brigade (flushing through the same
`flush_out` callback when its internal bucket fills; staging them as one
chunk is byte-equivalent for everything proved here). -/
def h2_conn_io_write (io : H2ConnIO) (data : List Nat) : H2ConnIO :=
  let io := { io with unflushed := true }
  if io.buffer_output then writeBuffered io data
  else { io with output := io.output ++ [data] }

/-- Embedding of `h2_conn_io_flush` (h2_conn_io.c:280-311) on the success
path: when unflushed, bucketeer any staged bytes and reset `buflen`,
append a FLUSH bucket (metadata, zero payload bytes — not modelled in the
chunk list), send the brigade through `flush_out`, and clear `unflushed`.
A clean channel is a no-op. -/
def h2_conn_io_flush (io : H2ConnIO) : H2ConnIO :=
  if io.unflushed then
    let io := if 0 < io.buffer.length then
        { bucketeer_buffer io with buffer := [] }
      else io
    { flush_out io with unflushed := false }
  else io

/-- One channel operation: a `write` or a `flush`, each preceded by an
arbitrary advance `dt` of the clock (this is what lets the idle-reset and
growth tuning fire at arbitrary moments). -/
inductive ChanOp
  | write (dt : Nat) (data : List Nat)
  | flush (dt : Nat)
deriving DecidableEq, Repr

/-- Apply one operation to the channel. -/
def applyChanOp (io : H2ConnIO) : ChanOp → H2ConnIO
  | ChanOp.write dt d => h2_conn_io_write { io with now := io.now + dt } d
  | ChanOp.flush dt => h2_conn_io_flush { io with now := io.now + dt }

/-- Run a whole operation sequence from a fresh channel. -/
def runChan (is_tls : Bool) (t0 : Nat) (ops : List ChanOp) : H2ConnIO :=
  ops.foldl applyChanOp (h2_conn_io_init is_tls t0)

/-- Concatenation of all bytes handed to `h2_conn_io_write` by an
operation sequence. -/
def writtenBytes (ops : List ChanOp) : List Nat :=
  (ops.map fun op => match op with
    | ChanOp.write _ d => d
    | ChanOp.flush _ => []).flatten

/-! ## Staged input reads: h2_conn_io_bucket_read / h2_conn_io_read -/

/-- A bucket of the input brigade: either metadata or a data span. -/
inductive Bucket
  | meta
  | data (bytes : List Nat)
deriving DecidableEq, Repr

/-- The consumer callback `on_read_cb` is modelled by a script of
`(consumed, done)` answers, one per invocation, always returning
`APR_SUCCESS` (the error path of the callback is outside the properties
proved here).  When the script runs out the consumer accepts the whole
span and does not signal done. -/
abbrev CbScript := List (Nat × Bool)

/-- Result of a bucket-read pass: the remaining brigade, the remaining
script, total `readlen`, the `done` flag, and the list of spans handed to
the consumer (in order). -/
structure BucketReadRes where
  brigade : List Bucket
  script : CbScript
  readlen : Nat
  done : Bool
  handed : List (List Nat)
deriving DecidableEq, Repr

/-- The loop of `h2_conn_io_bucket_read` (h2_conn_io.c:82-118): while the
brigade is nonempty and `done` was not signalled, take the first bucket;
metadata is deleted silently; an empty data bucket is deleted without
calling the consumer; otherwise the consumer gets the span and returns
`(consumed, done)` — when `consumed < length` the bucket is split at
`consumed` (`apr_bucket_split`) so that deleting the head leaves exactly
the unconsumed suffix staged. -/
def bucketReadAux (script : CbScript) (bs : List Bucket) (readlen : Nat)
    (handed : List (List Nat)) : BucketReadRes :=
  match bs with
  | [] => ⟨[], script, readlen, false, handed⟩
  | Bucket.meta :: rest => bucketReadAux script rest readlen handed
  | Bucket.data d :: rest =>
    if d.length = 0 then bucketReadAux script rest readlen handed
    else
      match script with
      | [] =>
        bucketReadAux [] rest (readlen + d.length) (handed ++ [d])
      | (consumed, done) :: script' =>
        let bs' := if consumed < d.length then
            Bucket.data (d.drop consumed) :: rest
          else rest
        if done then ⟨bs', script', readlen + consumed, true, handed ++ [d]⟩
        else bucketReadAux script' bs' (readlen + consumed) (handed ++ [d])
termination_by (script.length, bs.length)
decreasing_by
  · exact Prod.Lex.right _ (by simp)
  · exact Prod.Lex.right _ (by simp)
  · exact Prod.Lex.right _ (by simp)
  · exact Prod.Lex.left _ _ (by simp)

/-- Status of a read, `0 = APR_SUCCESS`; `h2_conn_io_bucket_read` turns a
zero-length nonblocking pass into `APR_EAGAIN` (h2_conn_io.c:119-121). -/
inductive ReadStatus
  | success
  | eagain
  | eof
deriving DecidableEq, Repr

/-- Embedding of `h2_conn_io_bucket_read` (h2_conn_io.c:73-123): run the
consumption loop, then report `APR_EAGAIN` when a nonblocking pass
produced nothing. -/
def h2_conn_io_bucket_read (blocking : Bool) (script : CbScript)
    (bs : List Bucket) : ReadStatus × BucketReadRes :=
  let r := bucketReadAux script bs 0 []
  if r.readlen = 0 && !blocking then (ReadStatus.eagain, r)
  else (ReadStatus.success, r)

/-- Embedding of `h2_conn_io_read` (h2_conn_io.c:125-175): staged input is
consumed first; if that pass ends with `done` (or a non-success status)
the call returns at once, otherwise the leftover staging is cleaned up
and more input is requested from the transport (`ap_get_brigade`,
modelled as `some fresh` on success and `none` for EOF/EAGAIN) and
consumed by a second pass.  The ghost `handed` trace of the result
collects the spans handed to the consumer over the whole call (both
passes); `readlen`/status come from the pass that produced them, as in the
source. -/
def h2_conn_io_read (blocking : Bool) (script : CbScript)
    (input : List Bucket) (transport : Option (List Bucket)) :
    ReadStatus × BucketReadRes :=
  if !input.isEmpty then
    let p := h2_conn_io_bucket_read blocking script input
    if p.1 ≠ ReadStatus.success || p.2.done then p
    else
      match transport with
      | some fresh =>
        let q := h2_conn_io_bucket_read blocking p.2.script fresh
        (q.1, { q.2 with handed := p.2.handed ++ q.2.handed })
      | none => (ReadStatus.eof, ⟨[], p.2.script, 0, false, p.2.handed⟩)
  else
    match transport with
    | some fresh => h2_conn_io_bucket_read blocking script fresh
    | none => (ReadStatus.eof, ⟨[], script, 0, false, []⟩)

/-! ## Worker reclamation: mpm_unix.c -/

/-- mpm_unix.c:61, `typedef enum {DO_NOTHING, SEND_SIGTERM, SEND_SIGKILL,
GIVEUP} action_t`. -/
inductive MpmAction
  | doNothing
  | sendSigterm
  | sendSigkill
  | giveUp
deriving DecidableEq, Repr

/-- The `action_table` of `ap_reclaim_child_processes`
(mpm_unix.c:179-192): pairs of action and elapsed-time threshold in
microseconds (`apr_time_from_sec`).  Entry 0 is the dummy no-op entry. -/
def action_table : List (MpmAction × Nat) :=
  [(MpmAction.doNothing, 0),
   (MpmAction.sendSigterm, 3000000),
   (MpmAction.sendSigterm, 5000000),
   (MpmAction.sendSigterm, 7000000),
   (MpmAction.sendSigkill, 9000000),
   (MpmAction.giveUp, 10000000)]

/-- Action stored at a table index. -/
def actionOf (i : Nat) : MpmAction :=
  ((action_table[i]?).map Prod.fst).getD MpmAction.doNothing

/-- Threshold stored at a table index. -/
def thresholdOf (i : Nat) : Nat :=
  ((action_table[i]?).map Prod.snd).getD 0

/-- The per-iteration action selection of the reclaim loop
(mpm_unix.c:211-218): when the next pending entry's threshold is reached,
that entry becomes the current action and the pending index advances;
otherwise the current action is the dummy entry 0.  Returns
`(cur_action, next_action)`.  In every run `next_action` stays within the
table while the loop is alive (the give-up entry ends the loop), so the
out-of-range arm is never consulted. -/
def selectAction (next_action : Nat) (elapsed : Nat) : Nat × Nat :=
  match action_table[next_action]? with
  | some (_, t) =>
    if t ≤ elapsed then (next_action, next_action + 1) else (0, next_action)
  | none => (0, next_action)

/-- State of one reclaim run.  `now` is elapsed microseconds since
`starttime`; `waittime` the next sleep length; `iter` counts finished
iterations; `lastCur` the `cur_action` index of the last iteration;
`trace` records `(elapsed, cur_action)` for every iteration. -/
structure ReclaimState where
  now : Nat
  waittime : Nat
  next_action : Nat
  iter : Nat
  lastCur : Nat
  trace : List (Nat × Nat)
deriving DecidableEq, Repr

/-- Initial reclaim state (mpm_unix.c:170,196): `waittime = 1024*16`
microseconds, `next_action = 1`. -/
def reclaimInit : ReclaimState :=
  { now := 0, waittime := 1024 * 16, next_action := 1, iter := 0,
    lastCur := 0, trace := [] }

/-- One iteration body of `ap_reclaim_child_processes`
(mpm_unix.c:200-252): sleep `waittime`, quadruple it capped at one second,
then select the action for the elapsed time.  Worker polling
(`reclaim_one_pid`) only sends signals; it does not change this state. -/
def reclaimStep (st : ReclaimState) : ReclaimState :=
  let now := st.now + st.waittime
  let wt := min (st.waittime * 4) 1000000
  let sel := selectAction st.next_action now
  { now := now, waittime := wt, next_action := sel.2, iter := st.iter + 1,
    lastCur := sel.1, trace := st.trace ++ [(now, sel.1)] }

/-- The do-while loop of `ap_reclaim_child_processes` (mpm_unix.c:200-256)
with explicit fuel.  `alive k` tells whether any worker was still alive
(`not_dead_yet > 0`) at the end of iteration `k`; the loop continues while
workers remain and the chosen action was not `GIVEUP`.  `none` means the
fuel ran out before the loop finished. -/
def reclaimLoop (alive : Nat → Bool) : Nat → ReclaimState →
    Option ReclaimState
  | 0, _ => none
  | fuel + 1, st =>
    let st' := reclaimStep st
    if alive st.iter && !(actionOf st'.lastCur = MpmAction.giveUp) then
      reclaimLoop alive fuel st'
    else some st'

/-- Embedding of `ap_reclaim_child_processes` for a run of at most 16
iterations (enough for the full timeline, as proved below). -/
def ap_reclaim_child_processes (alive : Nat → Bool) : Option ReclaimState :=
  reclaimLoop alive 16 reclaimInit

/-- The last timeline entry whose threshold is ≤ the elapsed time — this
is the spec's wording of the chosen action ("the chosen action at time t
is the last entry whose threshold ≤ t"), written here only to be compared
against what the code computes. -/
def specLastEntryLE (elapsed : Nat) : Nat :=
  ((List.range action_table.length).filter
    (fun i => thresholdOf i ≤ elapsed)).foldl (fun _ i => i) 0

/-! ## Extra-process ownership list: mpm_unix.c -/

/-- Embedding of `ap_register_extra_mpm_process` (mpm_unix.c:70-77): the
new entry is pushed onto the head of the `extras` list, with no duplicate
check. -/
def ap_register_extra_mpm_process (pid : Int) (extras : List Int) :
    List Int :=
  pid :: extras

/-- Embedding of `ap_unregister_extra_mpm_process` (mpm_unix.c:79-103):
walk the list, unlink the first entry with the given pid; returns whether
it was found together with the new list. -/
def ap_unregister_extra_mpm_process (pid : Int) :
    List Int → Bool × List Int
  | [] => (false, [])
  | p :: rest =>
    if p = pid then (true, rest)
    else
      let r := ap_unregister_extra_mpm_process pid rest
      (r.1, p :: r.2)

/-- A sequence of operations on the extras list. -/
inductive ExtraOp
  | reg (pid : Int)
  | unreg (pid : Int)
deriving DecidableEq, Repr

/-- Apply one extras operation. -/
def applyExtraOp (extras : List Int) : ExtraOp → List Int
  | ExtraOp.reg pid => ap_register_extra_mpm_process pid extras
  | ExtraOp.unreg pid => (ap_unregister_extra_mpm_process pid extras).2

/-- Run a sequence of extras operations from a given list. -/
def runExtraOps (extras : List Int) (ops : List ExtraOp) : List Int :=
  ops.foldl applyExtraOp extras

/-! ## Pipe-of-death signalling: mpm_unix.c -/

/-- Embedding of `pod_signal_internal` (mpm_unix.c:467-480): write one
sentinel byte into the pipe; a failure (`writeResult ≠ 0`) is logged.
Returns the write status and whether the failure log fired. -/
def pod_signal_internal (writeResult : Nat) : Nat × Bool :=
  (writeResult, writeResult ≠ 0)

/-- Embedding of `ap_mpm_pod_signal` (mpm_unix.c:577-587): run
`pod_signal_internal`; on failure return that status at once, otherwise
run `dummy_connection`.  Returns `(status, dummyPerformed, logged)` where
`dummyPerformed` records whether `dummy_connection` was reached and
`dummyResult` is its status. -/
def ap_mpm_pod_signal (writeResult dummyResult : Nat) : Nat × Bool × Bool :=
  let r := pod_signal_internal writeResult
  if r.1 ≠ 0 then (r.1, false, r.2)
  else (dummyResult, true, r.2)

/-! ## Claim C4: security leniency on unavailable version/cipher -/

/-- C4: on an encrypted connection with the compliance policy enabled and
the SSL lookup capability present, when both the negotiated TLS version
and the cipher are unavailable (NULL or empty lookup results),
`h2_is_security_compliant` returns true when `require_all` is false and
false when `require_all` is true. -/
theorem c4_security_leniency :
    (h2_is_security_compliant true true true none none false = true) ∧
    (h2_is_security_compliant true true true none (some "") false = true) ∧
    (h2_is_security_compliant true true true (some "") none false = true) ∧
    (h2_is_security_compliant true true true (some "") (some "") false = true) ∧
    (h2_is_security_compliant true true true none none true = false) ∧
    (h2_is_security_compliant true true true none (some "") true = false) ∧
    (h2_is_security_compliant true true true (some "") none true = false) ∧
    (h2_is_security_compliant true true true (some "") (some "") true = false) := by
  decide

/-! ## Claim C10: missing ssl_var_lookup capability -/

/-- C10: when the process-wide `ssl_var_lookup` optional function was not
retrieved at initialization, `h2_is_security_compliant` on an encrypted
connection with the compliance policy enabled returns false for every
`require_all` flag and every version/cipher lookup outcome (which is never
consulted). -/
theorem c10_missing_lookup_noncompliant :
    ∀ (v c : Option String) (require_all : Bool),
      h2_is_security_compliant true true false v c require_all = false := by
  intro v c require_all
  rfl

/-! ## Claim C7: pipe-of-death signal and the dummy-connection fallback -/

/-- C7 counterexample: when the sentinel-byte write fails (status 1),
`ap_mpm_pod_signal` returns that status at once and the dummy loopback
connection is NOT performed, contradicting the claim that the fallback
still applies; the failure is logged, as claimed. -/
theorem c7_pod_signal_counterexample :
    ap_mpm_pod_signal 1 0 = (1, false, true) ∧
    (ap_mpm_pod_signal 1 0).2.1 = false := by
  decide

/-- C7 amended: `signal()` logs a failed sentinel write and returns its
status without performing the dummy-connection fallback; the fallback runs
(and its status is returned) exactly when the write succeeds. -/
theorem c7_pod_signal_amended (writeResult dummyResult : Nat) :
    ap_mpm_pod_signal writeResult dummyResult =
      ((if writeResult = 0 then dummyResult else writeResult),
       decide (writeResult = 0), decide (writeResult ≠ 0)) := by
  by_cases h : writeResult = 0 <;>
    simp [ap_mpm_pod_signal, pod_signal_internal, h]

/-! ## Claim C9: pid uniqueness of the extras list -/

/-- C9 counterexample: registering pid 5 twice (the code prepends with no
duplicate check) yields a list with two entries sharing a pid. -/
theorem c9_extras_counterexample :
    runExtraOps [] [ExtraOp.reg 5, ExtraOp.reg 5] = [5, 5] ∧
    ¬ (runExtraOps [] [ExtraOp.reg 5, ExtraOp.reg 5]).Nodup := by
  decide

/-- Registers in an operation sequence only ever add pids not currently in
the list (the callers' obligation; the code itself never checks). -/
def freshRegs : List Int → List ExtraOp → Bool
  | _, [] => true
  | l, ExtraOp.reg p :: rest =>
    !(l.contains p) && freshRegs (applyExtraOp l (ExtraOp.reg p)) rest
  | l, ExtraOp.unreg p :: rest =>
    freshRegs (applyExtraOp l (ExtraOp.unreg p)) rest

/-- Unregistering yields a sublist of the original extras list. -/
lemma unregister_sublist (pid : Int) :
    ∀ l : List Int, (ap_unregister_extra_mpm_process pid l).2.Sublist l := by
  intro l
  induction l with
  | nil => simp [ap_unregister_extra_mpm_process]
  | cons p rest ih =>
    simp only [ap_unregister_extra_mpm_process]
    split
    · exact List.sublist_cons_self p rest
    · exact List.Sublist.cons₂ p ih

/-- C9 amended: `register` prepends unconditionally and performs no
duplicate check, so pid uniqueness of the extras list holds only under the
callers' obligation never to register a pid already present; under that
obligation (and `unregister` removing the first match), every reachable
list has pairwise distinct pids. -/
theorem c9_extras_amended :
    ∀ (ops : List ExtraOp) (l : List Int), l.Nodup → freshRegs l ops = true →
      (runExtraOps l ops).Nodup := by
  intro ops
  induction ops with
  | nil => intro l hnd _; simpa [runExtraOps] using hnd
  | cons op rest ih =>
    intro l hnd hfresh
    have hstep : runExtraOps l (op :: rest) = runExtraOps (applyExtraOp l op) rest := rfl
    rw [hstep]
    cases op with
    | reg p =>
      simp only [freshRegs, Bool.and_eq_true, Bool.not_eq_true'] at hfresh
      refine ih _ ?_ hfresh.2
      have hp : p ∉ l := by simpa using hfresh.1
      simpa [applyExtraOp, ap_register_extra_mpm_process, hp] using hnd
    | unreg p =>
      simp only [freshRegs] at hfresh
      refine ih _ ?_ hfresh
      exact List.Nodup.sublist (unregister_sublist p l) hnd

/-- C9 amended, witness: a run that registers 5, unregisters it, and
registers it again keeps the list duplicate-free. -/
theorem c9_extras_amended_witness :
    ([] : List Int).Nodup ∧
    freshRegs [] [ExtraOp.reg 5, ExtraOp.unreg 5, ExtraOp.reg 5] = true ∧
    (runExtraOps [] [ExtraOp.reg 5, ExtraOp.unreg 5, ExtraOp.reg 5]).Nodup :=
  ⟨by decide, by decide,
   c9_extras_amended [ExtraOp.reg 5, ExtraOp.unreg 5, ExtraOp.reg 5] []
     (by decide) (by decide)⟩

/-! ## Claim C3: sniff exactness -/

/-- The magic token has exactly 24 bytes. -/
lemma H2_MAGIC_TOKEN_length : H2_MAGIC_TOKEN.length = 24 := by decide

/-- C3: on an un-upgraded (`ctxProto0 = none`, still on HTTP/1.1)
connection with direct mode enabled and all reads succeeding with no ALPN
selection, (1) a speculative read whose first 24 bytes equal the magic
preface is detected, selecting "h2" on an encrypted transport and "h2c"
on cleartext; (2) mutating any single byte of the 24-byte preface leads to
Declined with no protocol selected; (3) fewer than 24 bytes leads to
Declined. -/
theorem c3_sniff_exactness :
    (∀ (is_tls : Bool) (s : List Nat), 24 ≤ s.length →
      s.take 24 = H2_MAGIC_TOKEN →
      h2_h2_process_conn false none true is_tls true none true true true s =
        (ConnResult.handled, some (if is_tls then "h2" else "h2c"))) ∧
    (∀ (is_tls : Bool) (i b : Nat), i < 24 → b ≠ H2_MAGIC_TOKEN.getD i 0 →
      h2_h2_process_conn false none true is_tls true none true true true
          (H2_MAGIC_TOKEN.set i b) =
        (ConnResult.declined, none)) ∧
    (∀ (is_tls : Bool) (s : List Nat), s.length < 24 →
      h2_h2_process_conn false none true is_tls true none true true true s =
        (ConnResult.declined, none)) := by
  refine ⟨?_, ?_, ?_⟩
  · intro is_tls s hlen htake
    simp [h2_h2_process_conn, sniffDirect, hlen, htake]
  · intro is_tls i b hi hb
    have hlen : (H2_MAGIC_TOKEN.set i b).length = 24 := by
      simp [List.length_set, H2_MAGIC_TOKEN_length]
    have htake : (H2_MAGIC_TOKEN.set i b).take 24 = H2_MAGIC_TOKEN.set i b :=
      List.take_of_length_le (by omega)
    have hne : H2_MAGIC_TOKEN.set i b ≠ H2_MAGIC_TOKEN := by
      intro heq
      have hi' : i < H2_MAGIC_TOKEN.length := by
        rw [H2_MAGIC_TOKEN_length]; exact hi
      have h1 : (H2_MAGIC_TOKEN.set i b)[i]? = some b := by
        simp [List.getElem?_set_self, hi']
      have h2 : H2_MAGIC_TOKEN[i]? = some (H2_MAGIC_TOKEN.getD i 0) := by
        simp [List.getD, List.getElem?_eq_getElem hi']
      rw [heq, h2] at h1
      exact hb (Option.some.inj h1.symm)
    simp [h2_h2_process_conn, sniffDirect, hlen, htake, hne]
  · intro is_tls s hlen
    have h24 : ¬ (24 ≤ s.length) := by omega
    simp [h2_h2_process_conn, sniffDirect, h24]

/-- C3 witness: the exact preface is detected as "h2c" on cleartext and
"h2" on TLS; flipping byte 0 to 99 declines; the empty read declines. -/
theorem c3_sniff_exactness_witness :
    (h2_h2_process_conn false none true false true none true true true
        H2_MAGIC_TOKEN = (ConnResult.handled, some "h2c")) ∧
    (h2_h2_process_conn false none true true true none true true true
        H2_MAGIC_TOKEN = (ConnResult.handled, some "h2")) ∧
    (h2_h2_process_conn false none true false true none true true true
        (H2_MAGIC_TOKEN.set 0 99) = (ConnResult.declined, none)) ∧
    (h2_h2_process_conn false none true true true none true true true
        (H2_MAGIC_TOKEN.take 23) = (ConnResult.declined, none)) :=
  ⟨by simpa using c3_sniff_exactness.1 false H2_MAGIC_TOKEN (by decide) (by decide),
   by simpa using c3_sniff_exactness.1 true H2_MAGIC_TOKEN (by decide) (by decide),
   c3_sniff_exactness.2.1 false 0 99 (by decide) (by decide),
   c3_sniff_exactness.2.2 true (H2_MAGIC_TOKEN.take 23) (by decide)⟩

/-! ## Claim C2: split-read semantics -/

/-- The consumer trace of a bucket-read pass only ever grows: whatever is
accumulated in `handed` stays a prefix of the final trace. -/
lemma bucketReadAux_handed_prefix :
    ∀ (script : CbScript) (bs : List Bucket) (rl : Nat) (h : List (List Nat)),
      ∃ t, (bucketReadAux script bs rl h).handed = h ++ t := by
  intro script bs rl h
  induction script, bs, rl, h using bucketReadAux.induct with
  | case1 script rl h => exact ⟨[], by simp [bucketReadAux]⟩
  | case2 script rl h rest ih => simpa [bucketReadAux] using ih
  | case3 script rl h d rest hz ih =>
    rw [bucketReadAux.eq_def]
    simpa [hz] using ih
  | case4 rl h d rest hz ih =>
    obtain ⟨t, ht⟩ := ih
    exact ⟨[d] ++ t, by simp [bucketReadAux, hz, ht]⟩
  | case5 rl h d rest hz consumed script' =>
    exact ⟨[d], by simp [bucketReadAux, hz]⟩
  | case6 rl h d rest hz consumed done script' bs' hdone ih =>
    obtain ⟨t, ht⟩ := ih
    refine ⟨[d] ++ t, ?_⟩
    simpa [bucketReadAux, hz, hdone, bs'] using ht

/-- When the staged brigade starts with a nonempty data span, that span is
the first one handed to the consumer. -/
lemma bucketReadAux_data_first (script : CbScript) (rest : List Bucket)
    (rl : Nat) (h : List (List Nat)) (d : List Nat) (hd : ¬ d.length = 0) :
    ∃ t, (bucketReadAux script (Bucket.data d :: rest) rl h).handed =
      h ++ [d] ++ t := by
  rw [bucketReadAux.eq_def]
  cases script with
  | nil =>
    obtain ⟨t, ht⟩ := bucketReadAux_handed_prefix [] rest (rl + d.length) (h ++ [d])
    exact ⟨t, by simpa [hd] using ht⟩
  | cons p s' =>
    obtain ⟨c, dn⟩ := p
    cases dn with
    | true => exact ⟨[], by simp [hd]⟩
    | false =>
      by_cases hc : c < d.length
      · obtain ⟨t, ht⟩ := bucketReadAux_handed_prefix s'
          (Bucket.data (d.drop c) :: rest) (rl + c) (h ++ [d])
        exact ⟨t, by simpa [hd, hc] using ht⟩
      · obtain ⟨t, ht⟩ := bucketReadAux_handed_prefix s' rest (rl + c) (h ++ [d])
        exact ⟨t, by simpa [hd, hc] using ht⟩

/-- C2 counterexample: the claim promises, for every `consumed < length`,
that the unconsumed suffix remains staged for the next read call — but
when the consumer does not signal `done`, the loop re-hands the suffix to
the consumer within the SAME call.  Concretely, on span `[1,2,3]` the
consumer returns `(consumed 1, done false)` and then `(consumed 2, done
true)`: after the call nothing remains staged (the suffix `[2,3]` was
handed again immediately, as the trace shows), so the next read call does
not yield the suffix of the first span. -/
theorem c2_split_read_counterexample :
    bucketReadAux [(1, false), (2, true)] [Bucket.data [1, 2, 3]] 0 [] =
      ⟨[], [], 3, true, [[1, 2, 3], [2, 3]]⟩ ∧
    (1 < 3) ∧
    (bucketReadAux [(1, false), (2, true)] [Bucket.data [1, 2, 3]] 0 []).brigade
      ≠ [Bucket.data [2, 3]] := by
  have h : bucketReadAux [(1, false), (2, true)] [Bucket.data [1, 2, 3]] 0 [] =
      ⟨[], [], 3, true, [[1, 2, 3], [2, 3]]⟩ := by
    simp [bucketReadAux]
  exact ⟨h, by decide, by rw [h]; decide⟩

/-- C2 amended: (1) when the consumer returns `(consumed, done = true)` on
a nonempty span, the read loop stops at once — the unconsumed suffix (when
`consumed < length`) stays staged at the head, the remaining staged spans
are untouched, and the span was handed exactly once; (2) when the consumer
returns `(consumed, done = false)` with `consumed < length`, the suffix is
re-handed to the consumer immediately within the same pass (never
discarded); (3) whatever remains staged at the head as a nonempty data
span is exactly what the next `h2_conn_io_read` call hands to the
consumer first. -/
theorem c2_split_read_amended :
    (∀ (d : List Nat) (c : Nat) (s : CbScript) (bs : List Bucket)
        (rl : Nat) (h : List (List Nat)), 0 < d.length →
      bucketReadAux ((c, true) :: s) (Bucket.data d :: bs) rl h =
        ⟨if c < d.length then Bucket.data (d.drop c) :: bs else bs,
         s, rl + c, true, h ++ [d]⟩) ∧
    (∀ (d : List Nat) (c : Nat) (s : CbScript) (bs : List Bucket)
        (rl : Nat) (h : List (List Nat)), c < d.length →
      bucketReadAux ((c, false) :: s) (Bucket.data d :: bs) rl h =
        bucketReadAux s (Bucket.data (d.drop c) :: bs) (rl + c) (h ++ [d])) ∧
    (∀ (blocking : Bool) (script : CbScript) (d : List Nat) (bs : List Bucket)
        (tr : Option (List Bucket)), d ≠ [] →
      ((h2_conn_io_read blocking script (Bucket.data d :: bs) tr).2).handed.head?
        = some d) := by
  refine ⟨?_, ?_, ?_⟩
  · intro d c s bs rl h hpos
    have hd : ¬ d.length = 0 := by omega
    rw [bucketReadAux.eq_def]
    by_cases hc : c < d.length <;> simp [hd, hc]
  · intro d c s bs rl h hc
    have hd : ¬ d.length = 0 := by omega
    rw [bucketReadAux.eq_def]
    simp [hd, hc]
  · intro blocking script d bs tr hd
    have hd' : ¬ d.length = 0 := by simpa using hd
    obtain ⟨t, ht⟩ := bucketReadAux_data_first script bs 0 [] d hd'
    simp only [List.nil_append] at ht
    have hr : (h2_conn_io_bucket_read blocking script (Bucket.data d :: bs)).2.handed
        = d :: t := by
      simp only [h2_conn_io_bucket_read]
      split <;> simpa using ht
    simp only [h2_conn_io_read, List.isEmpty_cons, Bool.not_false, if_true]
    split
    · simp [hr]
    · split <;> simp [hr]

/-- C2 amended, witness: on span `[1,2,3]` with `(consumed 1, done)` the
suffix `[2,3]` stays staged and the trailing span `[9]` is untouched; with
`(consumed 1, not done)` the suffix is re-handed in the same pass; and a
read on staging headed by `[7,8]` hands `[7,8]` to the consumer first. -/
theorem c2_split_read_amended_witness :
    (0 < 3 ∧
      bucketReadAux [(1, true)] [Bucket.data [1, 2, 3], Bucket.data [9]] 0 [] =
        ⟨[Bucket.data [2, 3], Bucket.data [9]], [], 1, true, [[1, 2, 3]]⟩) ∧
    (1 < 3 ∧
      bucketReadAux [(1, false)] [Bucket.data [1, 2, 3]] 0 [] =
        bucketReadAux [] [Bucket.data [2, 3]] 1 [[1, 2, 3]]) ∧
    (([7, 8] : List Nat) ≠ [] ∧
      ((h2_conn_io_read true [(2, true)] [Bucket.data [7, 8]] none).2).handed.head?
        = some [7, 8]) := by
  refine ⟨⟨by decide, ?_⟩, ⟨by decide, ?_⟩, ⟨by decide, ?_⟩⟩
  · simpa using
      c2_split_read_amended.1 [1, 2, 3] 1 [] [Bucket.data [9]] 0 [] (by decide)
  · simpa using c2_split_read_amended.2.1 [1, 2, 3] 1 [] [] 0 [] (by decide)
  · exact c2_split_read_amended.2.2 true [(2, true)] [7, 8] [] none (by decide)

/-! ## Claim C5: per-iteration action selection -/

/-- C5 counterexample: with workers that never exit, the 7th polling
iteration happens at elapsed time 4344064 μs and applies the dummy entry 0
(`DO_NOTHING`), while the last timeline entry whose threshold is ≤ that
elapsed time is entry 1 (`SEND_SIGTERM`, threshold 3 s) — the code fires
each timeline entry at most once (first poll at/after its threshold)
rather than re-applying the last passed entry at every poll. -/
theorem c5_action_selection_counterexample :
    ((ap_reclaim_child_processes (fun _ => true)).getD reclaimInit).trace.getD
        6 (0, 0) = (4344064, 0) ∧
    specLastEntryLE 4344064 = 1 ∧
    actionOf 0 = MpmAction.doNothing ∧
    actionOf 1 = MpmAction.sendSigterm ∧
    MpmAction.doNothing ≠ MpmAction.sendSigterm := by
  decide

/-- Trace soundness invariant: every recorded `(elapsed, cur_action)` pair
is either the dummy entry or an in-range entry whose threshold was
reached; the fired (nonzero) entries so far are exactly `1, …,
next_action - 1` in order. -/
def ReclaimInv (st : ReclaimState) : Prop :=
  1 ≤ st.next_action ∧
  (∀ p ∈ st.trace, p.2 = 0 ∨
    (1 ≤ p.2 ∧ p.2 < action_table.length ∧ thresholdOf p.2 ≤ p.1)) ∧
  (st.trace.map Prod.snd).filter (fun i => decide (i ≠ 0)) =
    List.range' 1 (st.next_action - 1)

/-- Per-iteration selection dichotomy: the chosen action is the dummy
entry, or it is the pending in-range entry whose threshold was reached and
the pending index advances by one. -/
lemma selectAction_spec (next elapsed : Nat) :
    selectAction next elapsed = (0, next) ∨
    (selectAction next elapsed = (next, next + 1) ∧
     next < action_table.length ∧ thresholdOf next ≤ elapsed) := by
  unfold selectAction
  cases hga : action_table[next]? with
  | none => left; rfl
  | some at' =>
    obtain ⟨a, t⟩ := at'
    by_cases ht : t ≤ elapsed
    · right
      refine ⟨by simp [ht], (List.getElem?_eq_some.mp hga).1, ?_⟩
      simpa [thresholdOf, hga] using ht
    · left; simp [ht]

/-- One reclaim iteration preserves the trace soundness invariant. -/
lemma reclaimStep_inv (st : ReclaimState) (h : ReclaimInv st) :
    ReclaimInv (reclaimStep st) := by
  obtain ⟨h1, h2, h3⟩ := h
  have hna : (reclaimStep st).next_action =
    (selectAction st.next_action (st.now + st.waittime)).2 := rfl
  have htr : (reclaimStep st).trace = st.trace ++
    [(st.now + st.waittime,
      (selectAction st.next_action (st.now + st.waittime)).1)] := rfl
  obtain hsel | ⟨hsel, hlt, hth⟩ :=
    selectAction_spec st.next_action (st.now + st.waittime)
  · rw [hsel] at hna htr
    refine ⟨by rw [hna]; exact h1, ?_, ?_⟩
    · intro p hp
      rw [htr] at hp
      rcases List.mem_append.mp hp with hin | hin
      · exact h2 p hin
      · left
        have hpe : p = (st.now + st.waittime, 0) := by simpa using hin
        rw [hpe]
    · rw [htr, hna]
      simp only [List.map_append, List.filter_append, h3]
      simp
  · rw [hsel] at hna htr
    have hne : st.next_action ≠ 0 := by omega
    refine ⟨by rw [hna]; omega, ?_, ?_⟩
    · intro p hp
      rw [htr] at hp
      rcases List.mem_append.mp hp with hin | hin
      · exact h2 p hin
      · right
        have hpe : p = (st.now + st.waittime, st.next_action) := by
          simpa using hin
        rw [hpe]
        exact ⟨h1, hlt, hth⟩
    · rw [htr, hna]
      simp only [List.map_append, List.filter_append, h3]
      have hone : (List.filter (fun i => decide (i ≠ 0))
          (List.map Prod.snd [(st.now + st.waittime, st.next_action)])) =
          [st.next_action] := by simp [hne]
      rw [hone]
      have hn : st.next_action + 1 - 1 = (st.next_action - 1) + 1 := by omega
      rw [hn, List.range'_concat]
      have hval : 1 + 1 * (st.next_action - 1) = st.next_action := by omega
      rw [hval]

/-- The reclaim loop preserves the trace soundness invariant up to its
final state. -/
lemma reclaimLoop_inv :
    ∀ (fuel : Nat) (alive : Nat → Bool) (st r : ReclaimState),
      ReclaimInv st → reclaimLoop alive fuel st = some r → ReclaimInv r := by
  intro fuel
  induction fuel with
  | zero => intro alive st r _ h; simp [reclaimLoop] at h
  | succ n ih =>
    intro alive st r hinv hr
    simp only [reclaimLoop] at hr
    split at hr
    · exact ih alive (reclaimStep st) r (reclaimStep_inv st hinv) hr
    · cases hr
      exact reclaimStep_inv st hinv

/-- The per-iteration state evolution of the reclaim loop is fully
deterministic: whatever the worker liveness, the state after every
iteration is the `iter`-fold iterate of `reclaimStep` from the initial
state — liveness decides only how many iterations run. -/
lemma reclaimLoop_schedule :
    ∀ (fuel : Nat) (alive : Nat → Bool) (st r : ReclaimState),
      st = reclaimStep^[st.iter] reclaimInit →
      reclaimLoop alive fuel st = some r →
      r = reclaimStep^[r.iter] reclaimInit := by
  intro fuel
  induction fuel with
  | zero => intro alive st r _ h; simp [reclaimLoop] at h
  | succ n ih =>
    intro alive st r hst hr
    have hstep : reclaimStep st = reclaimStep^[(reclaimStep st).iter] reclaimInit := by
      have hiter : (reclaimStep st).iter = st.iter + 1 := rfl
      rw [hiter, Function.iterate_succ_apply', ← hst]
    simp only [reclaimLoop] at hr
    split at hr
    · exact ih alive (reclaimStep st) r hstep hr
    · cases hr
      exact hstep

/-- C5 amended: (1) the per-iteration selection is exactly the if-then-else
partition — when the pending timeline entry exists and its threshold is ≤
the elapsed time, that entry becomes the current action and the pending
index advances by one; in every other case the current action is the dummy
no-op entry 0 and the index is unchanged; (2) at run level, the final
state of any run (any liveness, any fuel) equals the deterministic iterate
of the per-iteration step, so every poll's applied action is forced — in
particular the trace is the deterministic schedule of its length, every
fired entry is in range with its threshold reached, and the fired entries
are exactly `1, …, next_action - 1`, in timeline order. -/
theorem c5_action_selection_amended :
    (∀ (next elapsed : Nat),
      selectAction next elapsed =
        if next < action_table.length ∧ thresholdOf next ≤ elapsed then
          (next, next + 1)
        else (0, next)) ∧
    (∀ (alive : Nat → Bool) (fuel : Nat) (r : ReclaimState),
      reclaimLoop alive fuel reclaimInit = some r →
      r = reclaimStep^[r.iter] reclaimInit ∧
      (∀ p ∈ r.trace, p.2 = 0 ∨
        (1 ≤ p.2 ∧ p.2 < action_table.length ∧ thresholdOf p.2 ≤ p.1)) ∧
      (r.trace.map Prod.snd).filter (fun i => decide (i ≠ 0)) =
        List.range' 1 (r.next_action - 1)) := by
  constructor
  · intro next elapsed
    unfold selectAction
    cases hga : action_table[next]? with
    | none =>
      have hlen : ¬ next < action_table.length := by
        intro hlt
        rw [List.getElem?_eq_getElem hlt] at hga
        cases hga
      rw [if_neg (fun hand => hlen hand.1)]
    | some at' =>
      obtain ⟨a, t⟩ := at'
      have hlen : next < action_table.length := (List.getElem?_eq_some.mp hga).1
      have hth : thresholdOf next = t := by simp [thresholdOf, hga]
      by_cases ht : t ≤ elapsed
      · rw [if_pos ⟨hlen, by rw [hth]; exact ht⟩]
        simp [ht]
      · rw [if_neg (fun hand => ht (hth ▸ hand.2))]
        simp [ht]
  · intro alive fuel r hr
    have hinit : ReclaimInv reclaimInit := by
      refine ⟨le_refl 1, ?_, by simp [reclaimInit]⟩
      intro p hp
      simp [reclaimInit] at hp
    have hsound := reclaimLoop_inv fuel alive reclaimInit r hinit hr
    have hsched := reclaimLoop_schedule fuel alive reclaimInit r rfl hr
    exact ⟨hsched, hsound.2.1, hsound.2.2⟩

/-- C5 amended, witness: the worst-case run (no worker ever exits) is the
deterministic 13-iteration schedule and satisfies the amended
per-iteration selection property. -/
theorem c5_action_selection_amended_witness :
    ((ap_reclaim_child_processes (fun _ => true)).getD reclaimInit =
      reclaimStep^[((ap_reclaim_child_processes (fun _ => true)).getD
        reclaimInit).iter] reclaimInit) ∧
    (∀ p ∈ ((ap_reclaim_child_processes (fun _ => true)).getD reclaimInit).trace,
      p.2 = 0 ∨ (1 ≤ p.2 ∧ p.2 < action_table.length ∧ thresholdOf p.2 ≤ p.1)) ∧
    ((((ap_reclaim_child_processes (fun _ => true)).getD
        reclaimInit).trace.map Prod.snd).filter (fun i => decide (i ≠ 0)) =
      List.range' 1 (((ap_reclaim_child_processes (fun _ => true)).getD
        reclaimInit).next_action - 1)) :=
  c5_action_selection_amended.2 (fun _ => true) 16 _ (by rfl)

/-! ## Claim C6: reclamation termination -/

/-- The model clock never decreases along a reclaim run. -/
lemma reclaimLoop_now_mono :
    ∀ (fuel : Nat) (alive : Nat → Bool) (st r : ReclaimState),
      reclaimLoop alive fuel st = some r → st.now ≤ r.now := by
  intro fuel
  induction fuel with
  | zero => intro alive st r h; simp [reclaimLoop] at h
  | succ n ih =>
    intro alive st r hr
    have hstep : st.now ≤ (reclaimStep st).now := Nat.le_add_right _ _
    simp only [reclaimLoop] at hr
    split at hr
    · exact le_trans hstep (ih alive (reclaimStep st) r hr)
    · cases hr; exact hstep

/-- A run with arbitrary worker liveness finishes no later than the
worst-case run in which no worker ever exits, and it exits either because
no worker was left alive or because the give-up entry fired. -/
lemma reclaimLoop_dominated :
    ∀ (fuel : Nat) (st rT : ReclaimState),
      reclaimLoop (fun _ => true) fuel st = some rT →
      ∀ alive : Nat → Bool, ∃ r, reclaimLoop alive fuel st = some r ∧
        r.now ≤ rT.now ∧
        (alive (r.iter - 1) = false ∨ actionOf r.lastCur = MpmAction.giveUp) := by
  intro fuel
  induction fuel with
  | zero => intro st rT h; simp [reclaimLoop] at h
  | succ n ih =>
    intro st rT hT alive
    by_cases hg : actionOf (reclaimStep st).lastCur = MpmAction.giveUp
    · have hT' : rT = reclaimStep st := by
        simp only [reclaimLoop, hg] at hT
        simpa using hT.symm
      refine ⟨reclaimStep st, ?_, by rw [hT'], Or.inr hg⟩
      simp only [reclaimLoop, hg]
      simp
    · have hT' : reclaimLoop (fun _ => true) n (reclaimStep st) = some rT := by
        simpa only [reclaimLoop, hg] using hT
      cases ha : alive st.iter with
      | false =>
        refine ⟨reclaimStep st, ?_, ?_, Or.inl ?_⟩
        · simp only [reclaimLoop, ha]
          simp
        · exact reclaimLoop_now_mono n (fun _ => true) (reclaimStep st) rT hT'
        · have hiter : (reclaimStep st).iter - 1 = st.iter := by
            show st.iter + 1 - 1 = st.iter
            omega
          rw [hiter, ha]
      | true =>
        obtain ⟨r, hr, hle, hexit⟩ := ih (reclaimStep st) rT hT' alive
        refine ⟨r, ?_, hle, hexit⟩
        simpa only [reclaimLoop, ha, hg] using hr

/-- C6: for every liveness behaviour of the known workers — including
workers that never exit voluntarily — the reclaim loop terminates (the
16-iteration fuel is never exhausted), within the timeline bound of
10344064 μs ≈ 10 s plus the accumulated sleep granularity, and it stops
either because no worker was still alive at the last poll or because the
unconditional give-up entry fired, whichever comes first. -/
theorem c6_reclaim_termination :
    ∀ alive : Nat → Bool, ∃ r, ap_reclaim_child_processes alive = some r ∧
      r.now ≤ 10344064 ∧
      (alive (r.iter - 1) = false ∨ actionOf r.lastCur = MpmAction.giveUp) := by
  intro alive
  have hT : reclaimLoop (fun _ => true) 16 reclaimInit =
      some ((reclaimLoop (fun _ => true) 16 reclaimInit).getD reclaimInit) := by
    rfl
  obtain ⟨r, hr, hle, hexit⟩ := reclaimLoop_dominated 16 reclaimInit _ hT alive
  refine ⟨r, hr, ?_, hexit⟩
  have hnow : ((reclaimLoop (fun _ => true) 16 reclaimInit).getD
      reclaimInit).now = 10344064 := by decide
  omega

/-! ## Claim C1 / C8: buffered-channel lemmas -/

/-- All bytes a channel still owes the transport, in transport order:
chunks already passed to the filters, then the staged output brigade,
then the staged buffer. -/
def ioPending (io : H2ConnIO) : List Nat :=
  io.sent.flatten ++ io.output.flatten ++ io.buffer

/-- Chunking loses and reorders nothing. -/
lemma chunkify_flatten (ws : Nat) (d : List Nat) :
    (chunkify ws d).flatten = d := by
  induction d using chunkify.induct ws with
  | case1 x h ih =>
    rw [chunkify.eq_def, dif_pos h]
    simp only [List.flatten_cons, ih]
    exact List.take_append_drop _ _
  | case2 x h hemp =>
    rw [chunkify.eq_def, dif_neg h, if_pos hemp]
    simp only [List.isEmpty_iff] at hemp
    simp [hemp]
  | case3 x h hemp =>
    rw [chunkify.eq_def, dif_neg h, if_neg hemp]
    simp

/-- Write-size tuning does not touch the byte-carrying fields. -/
lemma tune_sent (io : H2ConnIO) : (tune_write_size io).sent = io.sent := by
  unfold tune_write_size
  split
  · rfl
  · split <;> rfl

/-- Tuning preserves the output brigade. -/
lemma tune_output (io : H2ConnIO) : (tune_write_size io).output = io.output := by
  unfold tune_write_size
  split
  · rfl
  · split <;> rfl

/-- Tuning preserves the staged buffer. -/
lemma tune_buffer (io : H2ConnIO) : (tune_write_size io).buffer = io.buffer := by
  unfold tune_write_size
  split
  · rfl
  · split <;> rfl

/-- Tuning preserves the buffering mode. -/
lemma tune_buffer_output (io : H2ConnIO) :
    (tune_write_size io).buffer_output = io.buffer_output := by
  unfold tune_write_size
  split
  · rfl
  · split <;> rfl

/-- Tuning preserves the dirty flag. -/
lemma tune_unflushed (io : H2ConnIO) :
    (tune_write_size io).unflushed = io.unflushed := by
  unfold tune_write_size
  split
  · rfl
  · split <;> rfl

/-- Tuning preserves the clock. -/
lemma tune_now (io : H2ConnIO) : (tune_write_size io).now = io.now := by
  unfold tune_write_size
  split
  · rfl
  · split <;> rfl

/-- Bucketeering then clearing the buffer preserves the pending bytes. -/
lemma pending_bucketeer_clear (io : H2ConnIO) :
    ioPending { bucketeer_buffer io with buffer := [] } = ioPending io := by
  simp [ioPending, bucketeer_buffer, tune_sent, tune_output, tune_buffer,
    chunkify_flatten, List.flatten_append, List.append_assoc]

/-- Flushing the output brigade preserves the pending bytes. -/
lemma pending_flush_out (io : H2ConnIO) :
    ioPending (flush_out io) = ioPending io := by
  simp [ioPending, flush_out, List.flatten_append, List.append_assoc]

/-- The full bucketeer–flush–clear cycle of the buffered write loop
preserves the pending bytes. -/
lemma pending_flush_cycle (io : H2ConnIO) :
    ioPending { flush_out (bucketeer_buffer io) with buffer := [] } =
      ioPending io := by
  simp [ioPending, flush_out, bucketeer_buffer, tune_sent, tune_output,
    tune_buffer, chunkify_flatten, List.flatten_append, List.append_assoc]

/-- The buffered write loop appends exactly its input to the pending
bytes. -/
lemma writeBuffered_pending (io : H2ConnIO) (d : List Nat) :
    ioPending (writeBuffered io d) = ioPending io ++ d := by
  induction io, d using writeBuffered.induct with
  | case1 io d hemp =>
    rw [writeBuffered.eq_def]
    simp only [hemp, if_pos]
    simp only [List.isEmpty_iff] at hemp
    simp [hemp]
  | case2 io d hemp h0 ih =>
    rw [writeBuffered.eq_def]
    simp only [hemp, if_neg, Bool.false_eq_true, not_false_iff, h0, dif_pos]
    rw [ih, pending_flush_cycle]
  | case3 io d hemp h0 hlt ih =>
    rw [writeBuffered.eq_def]
    simp only [hemp, if_neg, Bool.false_eq_true, not_false_iff, h0, dif_neg,
      hlt, dif_pos]
    rw [ih]
    show ioPending _ ++ _ = _
    simp [ioPending, List.append_assoc, List.take_append_drop]
  | case4 io d hemp h0 hlt =>
    rw [writeBuffered.eq_def]
    simp only [hemp, if_neg, Bool.false_eq_true, not_false_iff, h0, dif_neg,
      hlt]
    simp [ioPending, List.append_assoc]

/-- The buffered write loop does not change mode, clock or dirty flag. -/
lemma writeBuffered_fields (io : H2ConnIO) (d : List Nat) :
    (writeBuffered io d).buffer_output = io.buffer_output ∧
    (writeBuffered io d).now = io.now ∧
    (writeBuffered io d).unflushed = io.unflushed := by
  induction io, d using writeBuffered.induct with
  | case1 io d hemp =>
    rw [writeBuffered.eq_def]
    simp [hemp]
  | case2 io d hemp h0 ih =>
    rw [writeBuffered.eq_def]
    simp only [hemp, if_neg, Bool.false_eq_true, not_false_iff, h0, dif_pos]
    simpa [flush_out, bucketeer_buffer, tune_buffer_output, tune_now,
      tune_unflushed] using ih
  | case3 io d hemp h0 hlt ih =>
    rw [writeBuffered.eq_def]
    simp only [hemp, if_neg, Bool.false_eq_true, not_false_iff, h0, dif_neg,
      hlt, dif_pos]
    simpa using ih
  | case4 io d hemp h0 hlt =>
    rw [writeBuffered.eq_def]
    simp [hemp, h0, hlt]

/-- Channel well-formedness: an unbuffered channel never stages bytes in
the copy buffer, and a clean (flushed) channel holds no staged bytes at
all. -/
def ChanInv (io : H2ConnIO) : Prop :=
  (io.buffer_output = false → io.buffer = []) ∧
  (io.unflushed = false → io.buffer = [] ∧ io.output = [])

/-- A write appends exactly its bytes to the pending stream and keeps the
channel well-formed. -/
lemma write_pending (io : H2ConnIO) (d : List Nat) (h : ChanInv io) :
    ioPending (h2_conn_io_write io d) = ioPending io ++ d ∧
    ChanInv (h2_conn_io_write io d) := by
  unfold h2_conn_io_write
  cases hb : io.buffer_output with
  | true =>
    simp only [hb, if_true]
    constructor
    · rw [writeBuffered_pending]
      rfl
    · constructor
      · intro hfalse
        rw [(writeBuffered_fields _ d).1] at hfalse
        simp at hfalse
      · intro hfl
        rw [(writeBuffered_fields _ d).2.2] at hfl
        simp at hfl
  | false =>
    have hbuf : io.buffer = [] := h.1 hb
    simp only [hb, if_false]
    constructor
    · simp [ioPending, hbuf, List.flatten_append, List.append_assoc]
    · exact ⟨fun _ => hbuf, fun hfl => by simp at hfl⟩

/-- A flush preserves the pending stream and leaves a clean, well-formed
channel with empty staging areas. -/
lemma flush_pending (io : H2ConnIO) (h : ChanInv io) :
    ioPending (h2_conn_io_flush io) = ioPending io ∧
    (h2_conn_io_flush io).buffer = [] ∧
    (h2_conn_io_flush io).output = [] ∧
    (h2_conn_io_flush io).unflushed = false := by
  unfold h2_conn_io_flush
  cases hu : io.unflushed with
  | false =>
    obtain ⟨hbuf, hout⟩ := h.2 hu
    simp [hu, hbuf, hout]
  | true =>
    simp only [hu, if_true]
    by_cases hlen : 0 < io.buffer.length
    · simp only [hlen, if_pos]
      refine ⟨?_, by simp [flush_out], by simp [flush_out], by simp⟩
      show ioPending (flush_out { bucketeer_buffer io with buffer := [] }) =
        ioPending io
      rw [pending_flush_out, pending_bucketeer_clear]
    · have hbuf : io.buffer = [] := by
        cases hb : io.buffer with
        | nil => rfl
        | cons a l => rw [hb] at hlen; simp at hlen
      simp only [hlen, if_neg]
      refine ⟨?_, by simpa [flush_out] using hbuf, by simp [flush_out], by simp⟩
      show ioPending (flush_out io) = ioPending io
      exact pending_flush_out io

/-- The clock advance before each operation does not change pending bytes
or well-formedness. -/
lemma advance_clock_pending (io : H2ConnIO) (dt : Nat) :
    ioPending { io with now := io.now + dt } = ioPending io ∧
    (ChanInv io ↔ ChanInv { io with now := io.now + dt }) :=
  ⟨rfl, Iff.rfl⟩

/-- Running a whole operation sequence appends exactly the written bytes
to the pending stream and preserves well-formedness. -/
lemma runChan_pending :
    ∀ (ops : List ChanOp) (io : H2ConnIO), ChanInv io →
      ioPending (ops.foldl applyChanOp io) = ioPending io ++ writtenBytes ops ∧
      ChanInv (ops.foldl applyChanOp io) := by
  intro ops
  induction ops with
  | nil => intro io h; simp [writtenBytes]; exact h
  | cons op rest ih =>
    intro io h
    have hstep : (op :: rest).foldl applyChanOp io =
      rest.foldl applyChanOp (applyChanOp io op) := rfl
    rw [hstep]
    have hop : ioPending (applyChanOp io op) =
        ioPending io ++ (match op with
          | ChanOp.write _ d => d
          | ChanOp.flush _ => []) ∧ ChanInv (applyChanOp io op) := by
      cases op with
      | write dt d =>
        have h' : ChanInv { io with now := io.now + dt } := h
        have := write_pending { io with now := io.now + dt } d h'
        exact ⟨this.1, this.2⟩
      | flush dt =>
        have h' : ChanInv { io with now := io.now + dt } := h
        obtain ⟨hp, hbuf, hout, hun⟩ :=
          flush_pending { io with now := io.now + dt } h'
        refine ⟨by simpa using hp, ⟨fun _ => hbuf, fun _ => ⟨hbuf, hout⟩⟩⟩
    obtain ⟨hp1, hinv1⟩ := hop
    obtain ⟨hp2, hinv2⟩ := ih (applyChanOp io op) hinv1
    refine ⟨?_, hinv2⟩
    rw [hp2, hp1]
    cases op <;> simp [writtenBytes, List.append_assoc]

/-! ## Claim C1: buffering is lossless -/

/-- C1: for every channel (buffered/TLS or unbuffered), every starting
time, every sequence of writes and flushes with arbitrary clock advances
(hence arbitrary `write_size` tuning), ending in a flush: the
concatenation of all chunks passed to the transport equals the
concatenation of all bytes given to `h2_conn_io_write`, in order. -/
theorem c1_buffering_lossless (is_tls : Bool) (t0 : Nat) (ops : List ChanOp)
    (dt : Nat) :
    (runChan is_tls t0 (ops ++ [ChanOp.flush dt])).sent.flatten =
      writtenBytes ops := by
  have hinit : ChanInv (h2_conn_io_init is_tls t0) := by
    constructor <;> simp [h2_conn_io_init]
  have hpend0 : ioPending (h2_conn_io_init is_tls t0) = [] := rfl
  obtain ⟨hp, hinv⟩ := runChan_pending ops (h2_conn_io_init is_tls t0) hinit
  set S := List.foldl applyChanOp (h2_conn_io_init is_tls t0) ops with hS
  have h' : ChanInv { S with now := S.now + dt } := hinv
  obtain ⟨hfp, hfb, hfo, _⟩ := flush_pending { S with now := S.now + dt } h'
  have hrun : runChan is_tls t0 (ops ++ [ChanOp.flush dt]) =
      h2_conn_io_flush { S with now := S.now + dt } := by
    unfold runChan
    rw [List.foldl_append]
    rfl
  rw [hrun]
  have hpend : ioPending (h2_conn_io_flush { S with now := S.now + dt }) =
      writtenBytes ops := by
    rw [hfp]
    show ioPending S = writtenBytes ops
    rw [hp, hpend0]
    simp
  have hsent : ioPending (h2_conn_io_flush { S with now := S.now + dt }) =
      (h2_conn_io_flush { S with now := S.now + dt }).sent.flatten := by
    unfold ioPending
    rw [hfb, hfo]
    simp
  rw [← hsent, hpend]

/-! ## Claim C8: write_size bounds and transitions -/

/-- The write size is one of its two designed values. -/
def WSok (w : Nat) : Prop := w = WRITE_SIZE_INITIAL ∨ w = WRITE_SIZE_MAX

/-- Tuning keeps the write size at one of its two values. -/
lemma tune_ws_ok (io : H2ConnIO) (h : WSok io.write_size) :
    WSok (tune_write_size io).write_size := by
  unfold tune_write_size
  split
  · left; rfl
  · split
    · right; rfl
    · exact h

/-- Any decrease of the write size by tuning is the idle reset: it
requires at least `WRITE_SIZE_IDLE_USEC` since the last successful write
and lands exactly on `WRITE_SIZE_INITIAL`. -/
lemma tune_decrease (io : H2ConnIO) :
    (tune_write_size io).write_size < io.write_size →
      WRITE_SIZE_IDLE_USEC ≤ io.now - io.last_write ∧
      (tune_write_size io).write_size = WRITE_SIZE_INITIAL := by
  unfold tune_write_size
  by_cases h1 : io.write_size > WRITE_SIZE_INITIAL ∧
      io.now - io.last_write ≥ WRITE_SIZE_IDLE_USEC
  · rw [if_pos h1]
    intro _
    exact ⟨h1.2, rfl⟩
  · rw [if_neg h1]
    by_cases h2 : io.write_size < WRITE_SIZE_MAX ∧
        io.bytes_written ≥ WRITE_SIZE_THRESHOLD
    · rw [if_pos h2]
      intro hlt
      have hlt' : WRITE_SIZE_MAX < io.write_size := hlt
      exact absurd h2.1 (by omega)
    · rw [if_neg h2]
      intro hlt
      exact absurd hlt (lt_irrefl _)

/-- Any increase of the write size by tuning is the hot-connection growth:
it requires `WRITE_SIZE_THRESHOLD` bytes written since the last reset,
starts below `WRITE_SIZE_MAX` and lands exactly on `WRITE_SIZE_MAX`. -/
lemma tune_increase (io : H2ConnIO) :
    io.write_size < (tune_write_size io).write_size →
      WRITE_SIZE_THRESHOLD ≤ io.bytes_written ∧
      (tune_write_size io).write_size = WRITE_SIZE_MAX ∧
      io.write_size < WRITE_SIZE_MAX := by
  unfold tune_write_size
  by_cases h1 : io.write_size > WRITE_SIZE_INITIAL ∧
      io.now - io.last_write ≥ WRITE_SIZE_IDLE_USEC
  · rw [if_pos h1]
    intro hlt
    have hlt' : io.write_size < WRITE_SIZE_INITIAL := hlt
    exact absurd h1.1 (by omega)
  · rw [if_neg h1]
    by_cases h2 : io.write_size < WRITE_SIZE_MAX ∧
        io.bytes_written ≥ WRITE_SIZE_THRESHOLD
    · rw [if_pos h2]
      intro _
      exact ⟨h2.2, rfl, h2.1⟩
    · rw [if_neg h2]
      intro hlt
      exact absurd hlt (lt_irrefl _)

/-- The buffered write loop keeps the write size at one of its two
values (it only ever tunes it through `tune_write_size`). -/
lemma writeBuffered_ws (io : H2ConnIO) (d : List Nat) :
    WSok io.write_size → WSok (writeBuffered io d).write_size := by
  induction io, d using writeBuffered.induct with
  | case1 io d hemp =>
    intro h
    rw [writeBuffered.eq_def]
    simpa [hemp] using h
  | case2 io d hemp h0 ih =>
    intro h
    rw [writeBuffered.eq_def]
    simp only [hemp, if_neg, Bool.false_eq_true, not_false_iff, h0, dif_pos]
    refine ih ?_
    show WSok (tune_write_size io).write_size
    exact tune_ws_ok io h
  | case3 io d hemp h0 hlt ih =>
    intro h
    rw [writeBuffered.eq_def]
    simp only [hemp, if_neg, Bool.false_eq_true, not_false_iff, h0, dif_neg,
      hlt, dif_pos]
    exact ih h
  | case4 io d hemp h0 hlt =>
    intro h
    rw [writeBuffered.eq_def]
    simpa [hemp, h0, hlt] using h

/-- A write keeps the write size at one of its two values. -/
lemma write_ws_ok (io : H2ConnIO) (d : List Nat) (h : WSok io.write_size) :
    WSok (h2_conn_io_write io d).write_size := by
  unfold h2_conn_io_write
  cases hb : io.buffer_output with
  | true =>
    simp only [hb, if_true]
    exact writeBuffered_ws _ d h
  | false =>
    simp only [hb, if_false]
    exact h

/-- A flush keeps the write size at one of its two values. -/
lemma flush_ws_ok (io : H2ConnIO) (h : WSok io.write_size) :
    WSok (h2_conn_io_flush io).write_size := by
  unfold h2_conn_io_flush
  cases hu : io.unflushed with
  | false => simpa [hu] using h
  | true =>
    simp only [hu, if_true]
    by_cases hlen : 0 < io.buffer.length
    · simp only [hlen, if_pos]
      show WSok (tune_write_size io).write_size
      exact tune_ws_ok io h
    · simp only [hlen, if_neg]
      exact h

/-- Every reachable channel has its write size at one of its two
values. -/
lemma runChan_ws :
    ∀ (ops : List ChanOp) (io : H2ConnIO), WSok io.write_size →
      WSok ((ops.foldl applyChanOp io)).write_size := by
  intro ops
  induction ops with
  | nil => intro io h; exact h
  | cons op rest ih =>
    intro io h
    refine ih (applyChanOp io op) ?_
    cases op with
    | write dt d => exact write_ws_ok { io with now := io.now + dt } d h
    | flush dt => exact flush_ws_ok { io with now := io.now + dt } h

/-- C8: (1) in every state reachable by any operation sequence from a
fresh channel, `write_size` lies in `[WRITE_SIZE_INITIAL,
WRITE_SIZE_MAX]` = [1300, 16384]; (2) `write_size` decreases only through
the idle reset — at least 1 s since the last successful write — and then
exactly to 1300; (3) it grows only once at least 1 MiB has been written
since the last reset (`bytes_written`, zeroed by the reset), and then
exactly to 16384.  All `write_size` mutations in the source go through
the tuning prologue of `bucketeer_buffer` embedded as
`tune_write_size`. -/
theorem c8_write_size_invariant :
    (∀ (is_tls : Bool) (t0 : Nat) (ops : List ChanOp),
      WRITE_SIZE_INITIAL ≤ (runChan is_tls t0 ops).write_size ∧
      (runChan is_tls t0 ops).write_size ≤ WRITE_SIZE_MAX) ∧
    (∀ io : H2ConnIO, (tune_write_size io).write_size < io.write_size →
      WRITE_SIZE_IDLE_USEC ≤ io.now - io.last_write ∧
      (tune_write_size io).write_size = WRITE_SIZE_INITIAL) ∧
    (∀ io : H2ConnIO, io.write_size < (tune_write_size io).write_size →
      WRITE_SIZE_THRESHOLD ≤ io.bytes_written ∧
      (tune_write_size io).write_size = WRITE_SIZE_MAX ∧
      io.write_size < WRITE_SIZE_MAX) := by
  refine ⟨?_, tune_decrease, tune_increase⟩
  intro is_tls t0 ops
  have h0 : WSok (h2_conn_io_init is_tls t0).write_size := Or.inl rfl
  have h := runChan_ws ops (h2_conn_io_init is_tls t0) h0
  rcases h with h | h <;> rw [runChan] at * <;> rw [h] <;>
    simp [WRITE_SIZE_INITIAL, WRITE_SIZE_MAX]

/-- C8 witness: a fresh channel sits at 1300 within the bounds; a state at
16384 that has been idle for exactly 1 s resets to 1300; a state at 1300
with 1 MiB written since the reset grows to 16384. -/
theorem c8_write_size_invariant_witness :
    (WRITE_SIZE_INITIAL ≤ (runChan true 0 []).write_size ∧
      (runChan true 0 []).write_size ≤ WRITE_SIZE_MAX) ∧
    ((tune_write_size ⟨[], 16384, 0, 0, true, [], [], false, 1000000⟩).write_size
        < (16384 : Nat) ∧
      (1000000 : Nat) ≤ 1000000 - 0 ∧
      (tune_write_size
        ⟨[], 16384, 0, 0, true, [], [], false, 1000000⟩).write_size = 1300) ∧
    ((1300 : Nat) <
        (tune_write_size ⟨[], 1300, 1048576, 0, true, [], [], false, 0⟩).write_size ∧
      (1048576 : Nat) ≤ 1048576 ∧
      (tune_write_size
        ⟨[], 1300, 1048576, 0, true, [], [], false, 0⟩).write_size = 16384 ∧
      (1300 : Nat) < 16384) := by
  refine ⟨c8_write_size_invariant.1 true 0 [], ⟨by decide, ?_, ?_⟩, ⟨by decide, ?_, ?_, by decide⟩⟩
  · exact (c8_write_size_invariant.2.1
      ⟨[], 16384, 0, 0, true, [], [], false, 1000000⟩ (by decide)).1
  · exact (c8_write_size_invariant.2.1
      ⟨[], 16384, 0, 0, true, [], [], false, 1000000⟩ (by decide)).2
  · exact (c8_write_size_invariant.2.2
      ⟨[], 1300, 1048576, 0, true, [], [], false, 0⟩ (by decide)).1
  · exact (c8_write_size_invariant.2.2
      ⟨[], 1300, 1048576, 0, true, [], [], false, 0⟩ (by decide)).2.1

end Httpd
